import Mathlib

/-!
Shallow embedding of the framesconv repository: a tool converting a packed
RGBX image into planar NV12 through one of two GPU kernels (an OpenGL ES 3.1
compute shader and an OpenGL ES 2.0 fragment shader), with GBM buffer
management, a surfaceless EGL context, and commandline parsing.

The repository contains several historical snapshots of its orchestrator and
of the ES 2.0 fragment shader.  The embedding follows the conversion
orchestrator (the snapshot whose main selects between CreateFramesconvES20 and
CreateFramesconvES31 and allocates the destination buffer with dimensions
width / 4 by height * 3 / 2), the ES 3.1 compute kernel, and the ES 2.0
fragment shader snapshot that converts both planes.  The passthrough compute
kernel snapshot performs no conversion and is out of scope.

GLSL mediump floats are modelled as exact rational numbers; the native float
to 8 bit conversion is modelled by the quantize function below.  Native GL,
EGL and mmap calls are modelled by explicit environments recording whether
each call succeeds, and by event traces recording resource acquisition and
release.
-/

namespace Framesconv

/-- A four component GLSL vector, as delivered by imageLoad or texture2D.
Components are exact rationals in place of mediump floats. -/
structure Rgba where
  r : ℚ
  g : ℚ
  b : ℚ
  a : ℚ
deriving DecidableEq

/-- The result of the compute shader colorspace transform: vec3(y, u, v). -/
structure Yuv where
  y : ℚ
  u : ℚ
  v : ℚ
deriving DecidableEq

/-- rgb2yuv from the ES 3.1 compute shader (part_000 lines 98 to 104):
y = r * 0.2126 + g * 0.7152 + b * 0.0722, u = (b - y) / (2 * (1 - 0.0722)),
v = (r - y) / (2 * (1 - 0.2126)), returning vec3(y, u + 0.5, v + 0.5). -/
def rgb2yuv (c : Rgba) : Yuv :=
  let y := c.r * (2126 / 10000) + c.g * (7152 / 10000) + c.b * (722 / 10000)
  let u := (c.b - y) / (2 * (1 - 722 / 10000))
  let v := (c.r - y) / (2 * (1 - 2126 / 10000))
  { y := y, u := u + 1 / 2, v := v + 1 / 2 }

/-- rgb2luma from the ES 2.0 fragment shader (framesconv_es20.cc lines 221 to
226).  The R and B components of the sampled vector are deliberately swapped
relative to rgb2yuv, compensating for the ARGB8888 channel order delivered by
texture2D (see the source comment at lines 223 to 224). -/
def rgb2luma (c : Rgba) : ℚ :=
  c.b * (2126 / 10000) + c.g * (7152 / 10000) + c.r * (722 / 10000)

/-- rgb2chroma from the ES 2.0 fragment shader (framesconv_es20.cc lines 228
to 236), returning vec2(u + 0.5, v + 0.5).  Same deliberate R and B swap on
the sampled vector as rgb2luma. -/
def rgb2chroma (c : Rgba) : ℚ × ℚ :=
  let y := c.b * (2126 / 10000) + c.g * (7152 / 10000) + c.r * (722 / 10000)
  let u := (c.r - y) / (2 * (1 - 722 / 10000))
  let v := (c.b - y) / (2 * (1 - 2126 / 10000))
  (u + 1 / 2, v + 1 / 2)

/-- A source image pixel in normalized sample space: the red, green and blue
components of one packed RGBX sample, plus the padding byte. -/
structure SrcPixel where
  r : ℚ
  g : ℚ
  b : ℚ
  x : ℚ
deriving DecidableEq

/-- Texel the ES 3.1 compute path delivers for a source pixel.  The rgba8
image binding of the dma-buf texture hands the raw R, G, B, X bytes through in
that order, so the compute shader applies its formula to the source channels
directly (its rgb2yuv does not swap and its comment states it computes BT.709
of the source). -/
def sampleES31 (p : SrcPixel) : Rgba :=
  { r := p.r, g := p.g, b := p.b, a := p.x }

/-- Texel the ES 2.0 raster path delivers for a source pixel: texture2D on the
ARGB8888 texture returns the R and B channels swapped relative to the raw RGBX
bytes, which is exactly what the swap inside rgb2luma and rgb2chroma
compensates for (source comment, framesconv_es20.cc lines 223 to 224 and 230
to 231). -/
def sampleES20 (p : SrcPixel) : Rgba :=
  { r := p.b, g := p.g, b := p.r, a := p.x }

/-- The colorspace transform as written in the specification, section 4.4:
y = 0.2126 * r + 0.7152 * g + 0.0722 * b, u = (b - y) / (2 * (1 - 0.0722)) +
0.5, v = (r - y) / (2 * (1 - 0.2126)) + 0.5 (BT.709 full range).  Stated over
the source components; used to compare the two kernel embeddings against the
specification text. -/
def specYuv (r g b : ℚ) : Yuv :=
  { y := (2126 / 10000) * r + (7152 / 10000) * g + (722 / 10000) * b
    u := (b - ((2126 / 10000) * r + (7152 / 10000) * g + (722 / 10000) * b)) /
      (2 * (1 - 722 / 10000)) + 1 / 2
    v := (r - ((2126 / 10000) * r + (7152 / 10000) * g + (722 / 10000) * b)) /
      (2 * (1 - 2126 / 10000)) + 1 / 2 }

/-- Native float to 8 bit unorm conversion: clamp to the unit interval, scale
by 255, round to nearest.  The output byte value as an integer. -/
def quantize (q : ℚ) : ℤ :=
  round (255 * max 0 (min 1 q))

/-- An unbounded source image: pixel at column x, row y. -/
def Image : Type :=
  Nat → Nat → SrcPixel

/-- Luma value the compute variant produces for one source pixel: the y
component of rgb2yuv applied to the texel it samples (part_000 lines 127 to
139 store exactly yuv[i].r per pixel). -/
def lumaES31 (p : SrcPixel) : ℚ :=
  (rgb2yuv (sampleES31 p)).y

/-- Luma value the raster variant produces for one source pixel: rgb2luma of
the texel it samples (framesconv_es20.cc lines 260 to 268 store exactly
rgb2luma(rgb[i]) per pixel). -/
def lumaES20 (p : SrcPixel) : ℚ :=
  rgb2luma (sampleES20 p)

/-- Chroma pair (u, v) the compute variant derives from one source pixel
before block averaging: the g and b components of rgb2yuv. -/
def uvES31 (p : SrcPixel) : ℚ × ℚ :=
  ((rgb2yuv (sampleES31 p)).u, (rgb2yuv (sampleES31 p)).v)

/-- Chroma pair (u, v) the raster variant derives from one source pixel
before block averaging: rgb2chroma of the texel it samples. -/
def uvES20 (p : SrcPixel) : ℚ × ℚ :=
  rgb2chroma (sampleES20 p)

/-- Chroma pair the compute variant stores for the 2 by 2 source block with
upper left pixel (2 * bx, 2 * j): part_000 lines 147 to 149 average
yuv[0], yuv[1], yuv[4], yuv[5] (offsets (0,0), (1,0), (0,1), (1,1) from the
block corner) for the left block of each invocation and yuv[2], yuv[3],
yuv[6], yuv[7] (the same four offsets from the corner two columns right) for
the right block. -/
def es31BlockChroma (img : Image) (bx j : Nat) : ℚ × ℚ :=
  (((uvES31 (img (2 * bx) (2 * j))).1 + (uvES31 (img (2 * bx + 1) (2 * j))).1 +
    (uvES31 (img (2 * bx) (2 * j + 1))).1 +
    (uvES31 (img (2 * bx + 1) (2 * j + 1))).1) / 4,
   ((uvES31 (img (2 * bx) (2 * j))).2 + (uvES31 (img (2 * bx + 1) (2 * j))).2 +
    (uvES31 (img (2 * bx) (2 * j + 1))).2 +
    (uvES31 (img (2 * bx + 1) (2 * j + 1))).2) / 4)

/-- Chroma pair the raster variant stores for the 2 by 2 source block with
upper left pixel (2 * bx, 2 * j): framesconv_es20.cc lines 311 to 314 average
chroma[0], chroma[1], chroma[4], chroma[5] for the left block and chroma[2],
chroma[3], chroma[6], chroma[7] for the right block, the same four offsets
from each block corner as the compute variant. -/
def es20BlockChroma (img : Image) (bx j : Nat) : ℚ × ℚ :=
  (((uvES20 (img (2 * bx) (2 * j))).1 + (uvES20 (img (2 * bx + 1) (2 * j))).1 +
    (uvES20 (img (2 * bx) (2 * j + 1))).1 +
    (uvES20 (img (2 * bx + 1) (2 * j + 1))).1) / 4,
   ((uvES20 (img (2 * bx) (2 * j))).2 + (uvES20 (img (2 * bx + 1) (2 * j))).2 +
    (uvES20 (img (2 * bx) (2 * j + 1))).2 +
    (uvES20 (img (2 * bx + 1) (2 * j + 1))).2) / 4)

/-- Channel accessor of a GLSL vec4: channel 0 is r (x), 1 is g (y), 2 is b
(z), 3 is a (w). -/
def chan (c : Rgba) : Fin 4 → ℚ
  | 0 => c.r
  | 1 => c.g
  | 2 => c.b
  | 3 => c.a

/-- The .bgra swizzle: vec4(v.b, v.g, v.r, v.a). -/
def swizzleBgra (c : Rgba) : Rgba :=
  { r := c.b, g := c.g, b := c.r, a := c.a }

/-- The 4 byte luma store of the raster variant, as a function of the four
logical luma samples l 0 .. l 3 of its scanline rect: handle_luma returns
vec4(luma[0], luma[1], luma[2], luma[3]).bgra (framesconv_es20.cc line 268);
the other fragment shader snapshot writes the identical vector literally as
vec4(yuv[2].r, yuv[1].r, yuv[0].r, yuv[3].r) (line 531). -/
def es20LumaStore (l : Fin 4 → ℚ) : Rgba :=
  swizzleBgra { r := l 0, g := l 1, b := l 2, a := l 3 }

/-- Output channel i of the raster variant luma store. -/
def es20LumaChannel (l : Fin 4 → ℚ) (i : Fin 4) : ℚ :=
  chan (es20LumaStore l) i

/-- Four pairwise distinct luma samples used to exhibit the actual store
order. -/
def sampleQuad : Fin 4 → ℚ :=
  fun i => (i : ℚ)

/-- Workgroup grid passed to glDispatchCompute by the ES 3.1 variant
(part_000 lines 176 to 177): (width / 8, height / 4, 1). -/
def es31DispatchSize (w h : Nat) : Nat × Nat × Nat :=
  (w / 8, h / 4, 1)

/-- Sampling offsets of one compute invocation (part_000 lines 112 to 114). -/
def es31SrcOffsets : List (Nat × Nat) :=
  [(0, 0), (1, 0), (2, 0), (3, 0), (0, 1), (1, 1), (2, 1), (3, 1)]

/-- Source texels read by the compute invocation with global id (gx, gy):
upper left corner (gx * 4, gy * 2) plus the eight sampling offsets (part_000
lines 107 to 124). -/
def es31Footprint (gx gy : Nat) : List (Nat × Nat) :=
  es31SrcOffsets.map (fun o => (4 * gx + o.1, 2 * gy + o.2))

/-- C isspace characters skipped by atoi: space, tab, newline, vertical tab,
form feed, carriage return. -/
def isSpaceC (c : Char) : Bool :=
  c = ' ' || c = '\t' || c = '\n' || c = Char.ofNat 11 || c = Char.ofNat 12 ||
    c = '\r'

/-- Leading whitespace skipping of atoi. -/
def dropSpaces : List Char → List Char
  | [] => []
  | c :: rest => if isSpaceC c then dropSpaces rest else c :: rest

/-- Optional sign handling of atoi: returns whether the value is negated and
the remaining characters. -/
def splitSign (l : List Char) : Bool × List Char :=
  match l with
  | [] => (false, [])
  | c :: rest =>
    if c = '-' then (true, rest)
    else if c = '+' then (false, rest)
    else (false, l)

/-- Accumulates the value of a leading run of decimal digits; stops at the
first non digit character. -/
def digitsVal : List Char → Nat → Nat
  | [], acc => acc
  | c :: rest, acc =>
    if c.isDigit then digitsVal rest (acc * 10 + (c.toNat - 48)) else acc

/-- Model of std::atoi as used by check_size: skip whitespace, optional sign, then the
longest run of decimal digits; no digits yields 0, trailing characters are
ignored.  Modelled with unbounded integers (int overflow is undefined in C
and the claims stay far below INT_MAX). -/
def atoi (s : String) : Int :=
  let t := splitSign (dropSpaces s.data)
  let v : Int := digitsVal t.2 0
  if t.1 then -v else v

/-- The exceptions ParseCommandline can raise (main snapshot part_003 lines 44
to 83). -/
inductive ParseErr
  | missingArgument
  | sizeMustBePositive
  | sizeMustBeAligned
  | invalidImplementation
  | usage
deriving DecidableEq

/-- check_size (part_003 lines 46 to 52): a null pointer is a missing
argument, atoi values at most 0 are rejected as not positive, values with a
bit inside the alignment mask are rejected as misaligned, anything else is
accepted.  none models the null pointer read from beyond the argument
vector. -/
def check_size (a : Option String) (mask : Nat) : Except ParseErr Nat :=
  match a with
  | none => .error .missingArgument
  | some s =>
    let value := atoi s
    if value ≤ 0 then .error .sizeMustBePositive
    else if value.toNat &&& mask ≠ 0 then .error .sizeMustBeAligned
    else .ok value.toNat

/-- check_fname (part_003 lines 53 to 55): a dash selects the standard
stream, anything else is a file path. -/
def check_fname (s : String) : Option String :=
  if s = "-" then none else some s

/-- check_implementation (part_003 lines 56 to 60): 31 selects the compute
variant, 20 the raster variant, anything else is invalid. -/
def check_implementation (s : String) : Except ParseErr Bool :=
  if s = "31" then .ok false
  else if s = "20" then .ok true
  else .error .invalidImplementation

/-- Options filled by ParseCommandline (part_003 lines 35 to 42).  renderNode
is optional only to model the null pointer a trailing -r flag would leave. -/
structure Options where
  width : Nat
  height : Nat
  input : Option String
  output : Option String
  renderNode : Option String
  es20 : Bool
deriving DecidableEq

/-- Zero initialized Options with the default render node (part_003 lines 61
to 62). -/
def defaultOptions : Options :=
  { width := 0, height := 0, input := none, output := none,
    renderNode := some "/dev/dri/renderD128", es20 := false }

/-- The argument scanning loop of ParseCommandline (part_003 lines 63 to 76).
Each recognized flag consumes the following argument; a recognized flag at the
end of the vector reads the null pointer terminating argv, which check_size
reports as a missing argument.  The width mask is 0x7 and the height mask is
0x3 for both kernel variants. -/
def parseLoop : List String → Options → Except ParseErr Options
  | [], o => .ok o
  | a :: rest, o =>
    if a = "-w" then
      match rest with
      | [] => do let _ ← check_size none 0x7; parseLoop [] o
      | v :: rest2 => do
        let n ← check_size (some v) 0x7
        parseLoop rest2 { o with width := n }
    else if a = "-h" then
      match rest with
      | [] => do let _ ← check_size none 0x3; parseLoop [] o
      | v :: rest2 => do
        let n ← check_size (some v) 0x3
        parseLoop rest2 { o with height := n }
    else if a = "-i" then
      match rest with
      | [] => parseLoop [] o
      | v :: rest2 => parseLoop rest2 { o with input := check_fname v }
    else if a = "-o" then
      match rest with
      | [] => parseLoop [] o
      | v :: rest2 => parseLoop rest2 { o with output := check_fname v }
    else if a = "-r" then
      match rest with
      | [] => parseLoop [] { o with renderNode := none }
      | v :: rest2 => parseLoop rest2 { o with renderNode := some v }
    else if a = "-es" then
      match rest with
      | [] => .error .invalidImplementation
      | v :: rest2 => do
        let e ← check_implementation v
        parseLoop rest2 { o with es20 := e }
    else parseLoop rest o

/-- ParseCommandline (part_003 lines 44 to 83): scan the arguments, then
require both dimensions to be set. -/
def ParseCommandline (argv : List String) : Except ParseErr Options :=
  match parseLoop argv defaultOptions with
  | .error e => .error e
  | .ok o => if o.width = 0 || o.height = 0 then .error .usage else .ok o

/-- Device and GPU resources acquired by main after parsing. -/
inductive ResEvent
  | deviceOpen
  | bufferCreate
  | contextCreate
deriving DecidableEq

/-- The front of main (part_003 lines 87 to 110): ParseCommandline runs first
and any exception it raises propagates to the top level catch, so a parse
error reaches the exit path with no GBM device opened, no buffer created and
no EGL context constructed. -/
def mainResourcePrefix (argv : List String) : List ResEvent :=
  match ParseCommandline argv with
  | .error _ => []
  | .ok _ => [.deviceOpen, .bufferCreate, .bufferCreate, .contextCreate]

/-- Host side environment of one FillFrom or DrainTo call: whether mmap on the
buffer fd succeeds, and how many bytes the host stream can actually transfer
before entering a failed state. -/
structure HostEnv where
  mmapOk : Bool
  streamCapacity : Nat
deriving DecidableEq

/-- Mapping events of one FillFrom or DrainTo call, in order. -/
inductive MapEvent
  | mapped
  | unmapped
deriving DecidableEq

/-- Observable outcome of one FillFrom or DrainTo call: the mapping events in
order, the byte count requested from the stream, the bytes actually moved
between the mapping and the stream, and whether the call returned normally
(false means it raised). -/
structure CopyResult where
  events : List MapEvent
  requested : Nat
  transferred : Nat
  ok : Bool
deriving DecidableEq

/-- GbmBuffer.FillFrom (part_001 lines 147 to 157) over a buffer of the given
dimensions: size is width * height * 4; a failed mmap raises before anything
is mapped; otherwise the Defer guarantees munmap on both the normal return
and the short read throw, and stream.read moves min(size, capacity) bytes,
raising if the stream could not deliver all size bytes. -/
def fillFrom (w h : Nat) (env : HostEnv) : CopyResult :=
  let size := w * h * 4
  if env.mmapOk then
    { events := [.mapped, .unmapped], requested := size,
      transferred := min size env.streamCapacity,
      ok := decide (size ≤ env.streamCapacity) }
  else
    { events := [], requested := size, transferred := 0, ok := false }

/-- GbmBuffer.DrainTo (part_001 lines 159 to 169) over a buffer of the given
dimensions: identical structure to fillFrom with the copy direction reversed;
stream.write delivers min(size, capacity) bytes to the sink and the call
raises if the sink could not absorb all size bytes. -/
def drainTo (w h : Nat) (env : HostEnv) : CopyResult :=
  let size := w * h * 4
  if env.mmapOk then
    { events := [.mapped, .unmapped], requested := size,
      transferred := min size env.streamCapacity,
      ok := decide (size ≤ env.streamCapacity) }
  else
    { events := [], requested := size, transferred := 0, ok := false }

/-- Width of the destination GBM buffer allocated by main (part_003 line
102): options.width / 4. -/
def nv12BufWidth (w : Nat) : Nat :=
  w / 4

/-- Height of the destination GBM buffer allocated by main (part_003 line
102): options.height * 3 / 2 with C integer division. -/
def nv12BufHeight (h : Nat) : Nat :=
  h * 3 / 2

/-- Substring search of std::string_view::find as used by VerifyExtension:
true when the needle occurs inside the haystack. -/
def containsSub (hay needle : List Char) : Bool :=
  match hay with
  | [] => needle.isEmpty
  | _ :: rest => needle.isPrefixOf hay || containsSub rest needle

/-- VerifyExtension match (part_001 lines 57 to 64): the extension string
must contain the needle. -/
def hasExtension (haystack needle : String) : Bool :=
  containsSub haystack.data needle.data

/-- Error message built by VerifyExtension, including the typo of the
source. -/
def extMsg (needle : String) : String :=
  "Required extenstion " ++ needle ++ " is not supported"

/-- Native environment of the EglContext constructor: the client extension
string (none when eglQueryString returns null), success of
eglGetPlatformDisplay, eglInitialize, the display extension string, and
success of eglBindAPI and eglCreateContext. -/
structure EglEnv where
  clientExtQuery : Option String
  platformDisplayOk : Bool
  initializeOk : Bool
  displayExtQuery : Option String
  bindApiOk : Bool
  createContextOk : Bool
deriving DecidableEq

/-- Acquisition and release events of the EglContext constructor, in order.
The display is the only resource acquired before the last step; the context
is acquired by the final eglCreateContext. -/
inductive EglEvent
  | acquireDisplay
  | terminateDisplay
  | acquireContext
deriving DecidableEq

/-- Outcome of the EglContext constructor: its event trace and the error
message of the exception it raised, if any. -/
structure EglCtorResult where
  events : List EglEvent
  error : Option String
deriving DecidableEq

/-- The EglContext constructor (part_001 lines 208 to 243).  Failures before
eglGetPlatformDisplay raise with nothing acquired.  Once the display is
acquired the Defer terminates it on every raising path; on success the
display is moved out with std::exchange so the Defer is disarmed and nothing
is released. -/
def eglContextCtor (env : EglEnv) : EglCtorResult :=
  match env.clientExtQuery with
  | none => { events := [], error := some "Failed to query platformless egl extensions" }
  | some ext =>
    if !hasExtension ext "EGL_MESA_platform_surfaceless" then
      { events := [], error := some (extMsg "EGL_MESA_platform_surfaceless") }
    else if !env.platformDisplayOk then
      { events := [], error := some "Failed to get platform display" }
    else if !env.initializeOk then
      { events := [.acquireDisplay, .terminateDisplay],
        error := some "Failed to initialize egl display" }
    else
      match env.displayExtQuery with
      | none =>
        { events := [.acquireDisplay, .terminateDisplay],
          error := some "Failed to query platform egl extensions" }
      | some dext =>
        if !hasExtension dext "EGL_KHR_surfaceless_context" then
          { events := [.acquireDisplay, .terminateDisplay],
            error := some (extMsg "EGL_KHR_surfaceless_context") }
        else if !hasExtension dext "EGL_KHR_no_config_context" then
          { events := [.acquireDisplay, .terminateDisplay],
            error := some (extMsg "EGL_KHR_no_config_context") }
        else if !hasExtension dext "EGL_EXT_image_dma_buf_import" then
          { events := [.acquireDisplay, .terminateDisplay],
            error := some (extMsg "EGL_EXT_image_dma_buf_import") }
        else if !env.bindApiOk then
          { events := [.acquireDisplay, .terminateDisplay],
            error := some "Failed to bind egl api" }
        else if !env.createContextOk then
          { events := [.acquireDisplay, .terminateDisplay],
            error := some "Failed to create egl context" }
        else
          { events := [.acquireDisplay, .acquireContext], error := none }

/-- An EglEnv in which every native call succeeds and every required
capability is advertised. -/
def eglEnvAllPresent : EglEnv :=
  { clientExtQuery := some "EGL_MESA_platform_surfaceless"
    platformDisplayOk := true
    initializeOk := true
    displayExtQuery := some
      "EGL_KHR_surfaceless_context EGL_KHR_no_config_context EGL_EXT_image_dma_buf_import"
    bindApiOk := true
    createContextOk := true }

/-- Native environment of one EglContext.Sync call: whether eglCreateSync
succeeds, the raw eglClientWaitSync return value, and whether eglDestroySync
succeeds. -/
structure SyncEnv where
  createSyncOk : Bool
  waitStatus : Nat
  destroyOk : Bool
deriving DecidableEq

/-- Native calls Sync performs, in order. -/
inductive SyncCall
  | createSync
  | clientWaitSync
  | destroySync
deriving DecidableEq

/-- EglContext.Sync (part_001 lines 265 to 271): raise if eglCreateSync
returned no sync; otherwise call eglClientWaitSync and eglDestroySync with
both return values discarded, and return normally.  Result is the call trace
and the raised error message, if any. -/
def eglSyncTrace (env : SyncEnv) : List SyncCall × Option String :=
  if env.createSyncOk then
    ([.createSync, .clientWaitSync, .destroySync], none)
  else
    ([.createSync], some "Failed to create egl fence sync")

theorem lumaES31_eq_lumaES20 (p : SrcPixel) : lumaES31 p = lumaES20 p := by
  simp only [lumaES31, lumaES20, rgb2yuv, rgb2luma, sampleES31, sampleES20]

theorem uvES31_eq_uvES20 (p : SrcPixel) : uvES31 p = uvES20 p := by
  simp only [uvES31, uvES20, rgb2yuv, rgb2chroma, sampleES31, sampleES20,
    Prod.mk.injEq]

/-- Claim C3: for every source pixel (r, g, b) in normalized [0,1] sample
space, both kernel variants compute y = 0.2126*r + 0.7152*g + 0.0722*b,
u = (b - y) / (2*(1 - 0.0722)) + 0.5, v = (r - y) / (2*(1 - 0.2126)) + 0.5.
The compute shader rgb2yuv applies the formula to the texel it loads; the
fragment shader rgb2luma and rgb2chroma apply it to the channel swapped texel
texture2D delivers, so both match the specification formula over the source
components. -/
theorem claim_C3 (p : SrcPixel)
    (hr0 : 0 ≤ p.r) (hr1 : p.r ≤ 1) (hg0 : 0 ≤ p.g) (hg1 : p.g ≤ 1)
    (hb0 : 0 ≤ p.b) (hb1 : p.b ≤ 1) :
    rgb2yuv (sampleES31 p) = specYuv p.r p.g p.b ∧
    rgb2luma (sampleES20 p) = (specYuv p.r p.g p.b).y ∧
    rgb2chroma (sampleES20 p) =
      ((specYuv p.r p.g p.b).u, (specYuv p.r p.g p.b).v) := by
  refine ⟨?_, ?_, ?_⟩
  · simp only [rgb2yuv, sampleES31, specYuv, Yuv.mk.injEq]
    refine ⟨by ring, by ring, by ring⟩
  · simp only [rgb2luma, sampleES20, specYuv]
    ring
  · simp only [rgb2chroma, sampleES20, specYuv, Prod.mk.injEq]
    constructor <;> ring

theorem claim_C3_witness :
    0 ≤ (1 : ℚ) ∧
    rgb2yuv (sampleES31 { r := 1, g := 0, b := 0, x := 1 }) = specYuv 1 0 0 := by
  have h := claim_C3 { r := 1, g := 0, b := 0, x := 1 }
    (by norm_num) (by norm_num) (by norm_num) (by norm_num) (by norm_num)
    (by norm_num)
  exact ⟨by norm_num, h.1⟩

/-- Claim C2: for every input image, the raster variant and the compute
variant produce luma bytes differing by at most 1 unit at every pixel and
chroma bytes differing by at most 1 unit at every subsampled position.  The
two per pixel transforms agree exactly as rational functions of the source
pixel, so the quantized outputs are equal and the difference is 0. -/
theorem claim_C2 (img : Image) (x y bx j : Nat) :
    (quantize (lumaES31 (img x y)) - quantize (lumaES20 (img x y))).natAbs ≤ 1 ∧
    (quantize (es31BlockChroma img bx j).1 -
      quantize (es20BlockChroma img bx j).1).natAbs ≤ 1 ∧
    (quantize (es31BlockChroma img bx j).2 -
      quantize (es20BlockChroma img bx j).2).natAbs ≤ 1 := by
  have hblock : es31BlockChroma img bx j = es20BlockChroma img bx j := by
    simp only [es31BlockChroma, es20BlockChroma, uvES31_eq_uvES20]
  rw [lumaES31_eq_lumaES20, hblock]
  simp

/-- Claim C8 counterexample: the store vector of the raster luma pass is
vec4(luma[0], luma[1], luma[2], luma[3]).bgra, so output channel 3 holds
logical sample 3, not sample 0 as the claim (channel i holds sample 3 - i)
requires at i = 3. -/
theorem claim_C8_counterexample :
    es20LumaChannel sampleQuad 3 ≠ sampleQuad (3 - 3) := by
  decide

/-- Claim C8 amended: each 4 byte luma store of the raster variant writes its
4 logical samples with output channels 0, 1, 2, 3 holding logical samples
2, 1, 0, 3 respectively (the .bgra swizzle: the first three channels in
reversed order, the last channel keeping the last sample). -/
theorem claim_C8_amended (l : Fin 4 → ℚ) :
    es20LumaChannel l 0 = l 2 ∧ es20LumaChannel l 1 = l 1 ∧
    es20LumaChannel l 2 = l 0 ∧ es20LumaChannel l 3 = l 3 :=
  ⟨rfl, rfl, rfl, rfl⟩

/-- Claim C10: EglContext.Sync raises only when fence creation fails; the
results of the client wait and of destroying the fence are discarded, so the
outcome depends on nothing but the fence creation result. -/
theorem claim_C10 (env env2 : SyncEnv) :
    ((eglSyncTrace env).2.isSome ↔ env.createSyncOk = false) ∧
    ((eglSyncTrace env).1 = if env.createSyncOk then
      [.createSync, .clientWaitSync, .destroySync] else [.createSync]) ∧
    (env.createSyncOk = env2.createSyncOk →
      (eglSyncTrace env).2 = (eglSyncTrace env2).2) := by
  refine ⟨?_, ?_, ?_⟩
  · cases h : env.createSyncOk <;> simp [eglSyncTrace, h]
  · cases h : env.createSyncOk <;> simp [eglSyncTrace, h]
  · intro he
    cases h : env.createSyncOk <;>
      simp [eglSyncTrace, h, ← he]

theorem claim_C10_witness :
    (eglSyncTrace { createSyncOk := true, waitStatus := 0, destroyOk := false }).2 =
      (eglSyncTrace { createSyncOk := true, waitStatus := 12345, destroyOk := true }).2 :=
  (claim_C10 { createSyncOk := true, waitStatus := 0, destroyOk := false }
    { createSyncOk := true, waitStatus := 12345, destroyOk := true }).2.2 rfl

theorem mem_es31Footprint (gx gy : Nat) (p : Nat × Nat) :
    p ∈ es31Footprint gx gy ↔
      4 * gx ≤ p.1 ∧ p.1 < 4 * gx + 4 ∧ 2 * gy ≤ p.2 ∧ p.2 < 2 * gy + 2 := by
  obtain ⟨px, py⟩ := p
  simp only [es31Footprint, es31SrcOffsets, List.map_cons, List.map_nil,
    List.mem_cons, List.not_mem_nil, or_false, Prod.mk.injEq]
  omega

/-- Claim C5: for every valid aligned (width, height), the compute variant
dispatches a 2D grid of (width / 8, height / 4, 1) workgroups, and each
invocation reads exactly the 4 by 2 texel rectangle with upper left corner
(4 * gx, 2 * gy); with the 2 by 2 local size the dispatched invocations cover
every source texel. -/
theorem claim_C5 (w h : Nat) (hw : w % 8 = 0) (hh : h % 4 = 0) :
    es31DispatchSize w h = (w / 8, h / 4, 1) ∧
    (∀ gx gy p, p ∈ es31Footprint gx gy ↔
      4 * gx ≤ p.1 ∧ p.1 < 4 * gx + 4 ∧ 2 * gy ≤ p.2 ∧ p.2 < 2 * gy + 2) ∧
    (∀ x y, x < w → y < h → ∃ gx gy, gx < 2 * (w / 8) ∧ gy < 2 * (h / 4) ∧
      (x, y) ∈ es31Footprint gx gy) := by
  refine ⟨rfl, mem_es31Footprint, ?_⟩
  intro x y hx hy
  refine ⟨x / 4, y / 2, by omega, by omega, ?_⟩
  rw [mem_es31Footprint]
  simp only []
  omega

theorem claim_C5_witness :
    es31DispatchSize 16 8 = (16 / 8, 8 / 4, 1) :=
  (claim_C5 16 8 (by decide) (by decide)).1

theorem drainTo_ok_transferred (w h : Nat) (env : HostEnv)
    (hok : (drainTo w h env).ok = true) :
    (drainTo w h env).transferred = w * h * 4 := by
  cases hm : env.mmapOk <;> simp [drainTo, hm] at hok ⊢
  omega

/-- Claim C1: for every valid aligned (width, height), a successful drain of
the destination buffer (allocated with dimensions width / 4 by
height * 3 / 2) writes exactly width * height * 3 / 2 bytes to the sink,
which is the width * height byte luma plane followed by the
width * height / 2 byte chroma plane of NV12. -/
theorem claim_C1 (w h : Nat) (env : HostEnv) (hw : w % 8 = 0) (hh : h % 4 = 0)
    (hok : (drainTo (nv12BufWidth w) (nv12BufHeight h) env).ok = true) :
    (drainTo (nv12BufWidth w) (nv12BufHeight h) env).transferred =
      w * h * 3 / 2 ∧
    w * h * 3 / 2 = w * h + w * h / 2 := by
  obtain ⟨a, ha⟩ := Nat.dvd_of_mod_eq_zero hw
  obtain ⟨b, hb⟩ := Nat.dvd_of_mod_eq_zero hh
  subst ha hb
  have h1 : nv12BufWidth (8 * a) = 2 * a := by
    simp only [nv12BufWidth]
    omega
  have h2 : nv12BufHeight (4 * b) = 6 * b := by
    simp only [nv12BufHeight]
    omega
  rw [h1, h2] at hok ⊢
  rw [drainTo_ok_transferred _ _ _ hok]
  have e1 : 2 * a * (6 * b) * 4 = 48 * (a * b) := by ring
  have e2 : 8 * a * (4 * b) * 3 = 96 * (a * b) := by ring
  have e3 : 8 * a * (4 * b) = 32 * (a * b) := by ring
  rw [e1, e2, e3]
  omega

theorem claim_C1_witness :
    (drainTo (nv12BufWidth 16) (nv12BufHeight 8)
      { mmapOk := true, streamCapacity := 1000 }).transferred =
      16 * 8 * 3 / 2 :=
  (claim_C1 16 8 { mmapOk := true, streamCapacity := 1000 }
    (by decide) (by decide) (by decide)).1

/-- Claim C6: FillFrom and DrainTo request the full extent of
width * height * 4 bytes, unmap on every exit path on which the mapping was
established, copy exactly the full extent when they return normally, and
raise when the stream moves fewer bytes than the full extent. -/
theorem claim_C6 (w h : Nat) (env : HostEnv) :
    (fillFrom w h env).requested = w * h * 4 ∧
    (drainTo w h env).requested = w * h * 4 ∧
    (fillFrom w h env).events.count .unmapped =
      (fillFrom w h env).events.count .mapped ∧
    (drainTo w h env).events.count .unmapped =
      (drainTo w h env).events.count .mapped ∧
    (env.mmapOk = true → (fillFrom w h env).events = [.mapped, .unmapped] ∧
      (drainTo w h env).events = [.mapped, .unmapped]) ∧
    ((fillFrom w h env).ok = true ↔
      env.mmapOk = true ∧ w * h * 4 ≤ env.streamCapacity) ∧
    ((drainTo w h env).ok = true ↔
      env.mmapOk = true ∧ w * h * 4 ≤ env.streamCapacity) ∧
    ((fillFrom w h env).ok = true →
      (fillFrom w h env).transferred = w * h * 4) ∧
    ((drainTo w h env).ok = true →
      (drainTo w h env).transferred = w * h * 4) := by
  cases hm : env.mmapOk <;>
    simp [fillFrom, drainTo, hm, List.count_cons, min_def] <;>
    omega

theorem claim_C6_witness :
    (fillFrom 4 2 { mmapOk := true, streamCapacity := 32 }).events =
      [.mapped, .unmapped] ∧
    (drainTo 4 2 { mmapOk := true, streamCapacity := 32 }).events =
      [.mapped, .unmapped] :=
  (claim_C6 4 2 { mmapOk := true, streamCapacity := 32 }).2.2.2.2.1 rfl

/-- Claim C7: the EglContext constructor is atomic.  On every raising path
its event trace is either empty (failure before the display was acquired) or
acquire followed by terminate (the Defer releasing the one acquired resource
before the exception propagates); absence of any required capability makes it
raise; and on success the trace is acquire display then acquire context with
no release at all, so nothing is released twice. -/
theorem claim_C7 (env : EglEnv) :
    ((eglContextCtor env).error.isSome →
      (eglContextCtor env).events = [] ∨
      (eglContextCtor env).events = [.acquireDisplay, .terminateDisplay]) ∧
    ((eglContextCtor env).error = none →
      (eglContextCtor env).events = [.acquireDisplay, .acquireContext] ∧
      EglEvent.terminateDisplay ∉ (eglContextCtor env).events) ∧
    (∀ ext, env.clientExtQuery = some ext →
      hasExtension ext "EGL_MESA_platform_surfaceless" = false →
      (eglContextCtor env).error.isSome) ∧
    (∀ dext, env.displayExtQuery = some dext →
      (hasExtension dext "EGL_KHR_surfaceless_context" = false ∨
       hasExtension dext "EGL_KHR_no_config_context" = false ∨
       hasExtension dext "EGL_EXT_image_dma_buf_import" = false) →
      (eglContextCtor env).error.isSome) := by
  obtain ⟨cq, pd, ini, dq, ba, cc⟩ := env
  cases cq <;> cases dq <;>
    simp only [eglContextCtor] <;>
    (try split_ifs) <;>
    simp_all

theorem claim_C7_witness :
    (eglContextCtor eglEnvAllPresent).events =
      [.acquireDisplay, .acquireContext] ∧
    EglEvent.terminateDisplay ∉ (eglContextCtor eglEnvAllPresent).events :=
  (claim_C7 eglEnvAllPresent).2.1 (by decide)

theorem check_size_ok (s : String) (mask n : Nat)
    (h : check_size (some s) mask = .ok n) : 0 < n ∧ n &&& mask = 0 := by
  simp only [check_size] at h
  split_ifs at h with h1 h2
  all_goals cases h
  exact ⟨by omega, not_not.mp h2⟩

theorem and_seven_eq_zero (n : Nat) (h : n &&& 7 = 0) : n % 8 = 0 := by
  have hm := Nat.and_pow_two_sub_one_eq_mod n 3
  norm_num at hm
  rw [hm] at h
  exact h

theorem and_three_eq_zero (n : Nat) (h : n &&& 3 = 0) : n % 4 = 0 := by
  have hm := Nat.and_pow_two_sub_one_eq_mod n 2
  norm_num at hm
  rw [hm] at h
  exact h

theorem parseLoop_ok_dims (args : List String) (o : Options) :
    ∀ o2, parseLoop args o = .ok o2 →
    (o2.width = o.width ∨ (0 < o2.width ∧ o2.width &&& 7 = 0)) ∧
    (o2.height = o.height ∨ (0 < o2.height ∧ o2.height &&& 3 = 0)) := by
  induction args, o using parseLoop.induct with
  | case1 o =>
    intro o2 h
    simp only [parseLoop, Except.ok.injEq] at h
    subst h
    exact ⟨Or.inl rfl, Or.inl rfl⟩
  | case2 o ih =>
    intro o2 h
    rw [parseLoop] at h
    simp [check_size, Bind.bind, Except.bind] at h
  | case3 o v rest2 ih =>
    intro o2 h
    rw [parseLoop] at h
    simp only [if_pos rfl] at h
    cases hc : check_size (some v) 0x7 with
    | error e => rw [hc] at h; simp [Bind.bind, Except.bind] at h
    | ok n =>
      rw [hc] at h
      simp only [Bind.bind, Except.bind] at h
      obtain ⟨hcw, hca⟩ := check_size_ok v 0x7 n hc
      have hdims := ih n o2 h
      refine ⟨?_, ?_⟩
      · rcases hdims.1 with he | hv
        · exact Or.inr ⟨by simpa [he] using hcw, by simpa [he] using hca⟩
        · exact Or.inr hv
      · rcases hdims.2 with he | hv
        · exact Or.inl (by simpa using he)
        · exact Or.inr hv
  | case4 o hne ih =>
    intro o2 h
    rw [parseLoop] at h
    simp [check_size, Bind.bind, Except.bind] at h
  | case5 o v rest2 hne ih =>
    intro o2 h
    rw [parseLoop] at h
    simp only [if_neg hne, if_pos rfl] at h
    cases hc : check_size (some v) 0x3 with
    | error e => rw [hc] at h; simp [Bind.bind, Except.bind] at h
    | ok n =>
      rw [hc] at h
      simp only [Bind.bind, Except.bind] at h
      obtain ⟨hcw, hca⟩ := check_size_ok v 0x3 n hc
      have hdims := ih n o2 h
      refine ⟨?_, ?_⟩
      · rcases hdims.1 with he | hv
        · exact Or.inl (by simpa using he)
        · exact Or.inr hv
      · rcases hdims.2 with he | hv
        · exact Or.inr ⟨by simpa [he] using hcw, by simpa [he] using hca⟩
        · exact Or.inr hv
  | case6 o h1 h2 ih =>
    intro o2 h
    rw [parseLoop] at h
    simp only [if_neg h1, if_neg h2, if_pos rfl] at h
    exact ih o2 h
  | case7 o v rest2 h1 h2 ih =>
    intro o2 h
    rw [parseLoop] at h
    simp only [if_neg h1, if_neg h2, if_pos rfl] at h
    exact ih o2 h
  | case8 o h1 h2 h3 ih =>
    intro o2 h
    rw [parseLoop] at h
    simp only [if_neg h1, if_neg h2, if_neg h3, if_pos rfl] at h
    exact ih o2 h
  | case9 o v rest2 h1 h2 h3 ih =>
    intro o2 h
    rw [parseLoop] at h
    simp only [if_neg h1, if_neg h2, if_neg h3, if_pos rfl] at h
    exact ih o2 h
  | case10 o h1 h2 h3 h4 ih =>
    intro o2 h
    rw [parseLoop] at h
    simp only [if_neg h1, if_neg h2, if_neg h3, if_neg h4, if_pos rfl] at h
    exact ih o2 h
  | case11 o v rest2 h1 h2 h3 h4 ih =>
    intro o2 h
    rw [parseLoop] at h
    simp only [if_neg h1, if_neg h2, if_neg h3, if_neg h4, if_pos rfl] at h
    exact ih o2 h
  | case12 o h1 h2 h3 h4 h5 =>
    intro o2 h
    rw [parseLoop] at h
    simp only [if_neg h1, if_neg h2, if_neg h3, if_neg h4, if_neg h5,
      if_pos rfl] at h
    cases h
  | case13 o v rest2 h1 h2 h3 h4 h5 ih =>
    intro o2 h
    rw [parseLoop] at h
    simp only [if_neg h1, if_neg h2, if_neg h3, if_neg h4, if_neg h5,
      if_pos rfl] at h
    cases hc : check_implementation v with
    | error e => rw [hc] at h; simp [Bind.bind, Except.bind] at h
    | ok e =>
      rw [hc] at h
      simp only [Bind.bind, Except.bind] at h
      exact ih e o2 h
  | case14 a rest o h1 h2 h3 h4 h5 h6 ih =>
    intro o2 h
    rw [parseLoop.eq_def] at h
    simp only [if_neg h1, if_neg h2, if_neg h3, if_neg h4, if_neg h5,
      if_neg h6] at h
    exact ih o2 h

theorem ParseCommandline_ok_dims (argv : List String) (o : Options)
    (h : ParseCommandline argv = .ok o) :
    0 < o.width ∧ o.width &&& 7 = 0 ∧ 0 < o.height ∧ o.height &&& 3 = 0 := by
  simp only [ParseCommandline] at h
  cases hp : parseLoop argv defaultOptions with
  | error e => rw [hp] at h; cases h
  | ok o1 =>
    rw [hp] at h
    dsimp only at h
    split_ifs at h with hz
    injection h with heq
    subst heq
    simp only [Bool.or_eq_true, decide_eq_true_eq, not_or] at hz
    have hdims := parseLoop_ok_dims argv defaultOptions o1 hp
    rcases hdims.1 with he | hv
    · exact absurd (he.trans rfl) hz.1
    · rcases hdims.2 with he2 | hv2
      · exact absurd (he2.trans rfl) hz.2
      · exact ⟨hv.1, hv.2, hv2.1, hv2.2⟩

/-- Claim C4: any command line whose width is not divisible by 8 (hence also
any width not divisible by 4), whose height is not divisible by 4 (hence also
any height not divisible by 2), or whose dimension is zero or negative, is
rejected by ParseCommandline; a successful parse always carries positive
dimensions with width divisible by 8 and height divisible by 4 (the masks 0x7
and 0x3 apply to both kernel paths), and every rejection reaches the top
level catch before main opens the GBM device, creates a buffer or constructs
the EGL context. -/
theorem claim_C4 (argv : List String) :
    (∀ o, ParseCommandline argv = .ok o →
      0 < o.width ∧ o.width % 4 = 0 ∧ o.width % 8 = 0 ∧
      0 < o.height ∧ o.height % 2 = 0 ∧ o.height % 4 = 0) ∧
    (∀ e, ParseCommandline argv = .error e → mainResourcePrefix argv = []) := by
  constructor
  · intro o h
    obtain ⟨hw, hwa, hh, hha⟩ := ParseCommandline_ok_dims argv o h
    have h8 := and_seven_eq_zero o.width hwa
    have h4 := and_three_eq_zero o.height hha
    exact ⟨hw, by omega, h8, hh, by omega, h4⟩
  · intro e h
    simp [mainResourcePrefix, h]

theorem claim_C4_witness :
    mainResourcePrefix ["framesconv", "-w", "12", "-h", "4"] = [] :=
  (claim_C4 ["framesconv", "-w", "12", "-h", "4"]).2 .sizeMustBeAligned rfl

theorem isDigit_not_space (c : Char) (h : c.isDigit = true) :
    isSpaceC c = false := by
  by_contra hs
  rw [Bool.not_eq_false] at hs
  simp only [isSpaceC, Bool.or_eq_true, decide_eq_true_eq] at hs
  rcases hs with ((((h1 | h1) | h1) | h1) | h1) | h1 <;> subst h1 <;>
    exact absurd h (by decide)

theorem dropSpaces_cons_digit (c : Char) (l : List Char)
    (h : c.isDigit = true) : dropSpaces (c :: l) = c :: l := by
  simp [dropSpaces, isDigit_not_space c h]

theorem splitSign_cons_digit (c : Char) (l : List Char)
    (h : c.isDigit = true) : splitSign (c :: l) = (false, c :: l) := by
  have h1 : c ≠ '-' := fun he => absurd h (by subst he; decide)
  have h2 : c ≠ '+' := fun he => absurd h (by subst he; decide)
  simp [splitSign, h1, h2]

theorem digitsVal_stop (l : List Char) (acc : Nat)
    (hl : (l.head?.all fun c => !c.isDigit) = true) : digitsVal l acc = acc := by
  cases l with
  | nil => rfl
  | cons c rest =>
    simp only [List.head?_cons, Option.all_some, Bool.not_eq_true'] at hl
    simp [digitsVal, hl]

theorem digitsVal_append (ds rest : List Char)
    (hrest : (rest.head?.all fun c => !c.isDigit) = true) :
    ∀ acc, (∀ c ∈ ds, c.isDigit = true) →
    digitsVal (ds ++ rest) acc = digitsVal ds acc := by
  induction ds with
  | nil =>
    intro acc _
    simpa using digitsVal_stop rest acc hrest
  | cons d ds2 ih =>
    intro acc hdig
    have hd : d.isDigit = true := hdig d (by simp)
    simp only [List.cons_append, digitsVal, if_pos hd]
    exact ih _ (fun c hc => hdig c (List.mem_cons_of_mem d hc))

theorem atoi_leading_digits (ds rest : List Char)
    (hne : ds ≠ []) (hdig : ∀ c ∈ ds, c.isDigit = true)
    (hrest : (rest.head?.all fun c => !c.isDigit) = true) :
    atoi (String.mk (ds ++ rest)) = (digitsVal ds 0 : Int) := by
  obtain ⟨d, ds2, rfl⟩ := List.exists_cons_of_ne_nil hne
  have hd : d.isDigit = true := hdig d (by simp)
  simp only [atoi, List.cons_append]
  rw [dropSpaces_cons_digit d _ hd, splitSign_cons_digit d _ hd]
  simp only [Bool.false_eq_true, if_false, digitsVal, if_pos hd]
  rw [digitsVal_append ds2 rest hrest _
    (fun c hc => hdig c (List.mem_cons_of_mem d hc))]

theorem atoi_no_digits (s : String)
    (hs : ((splitSign (dropSpaces s.data)).2.head?.all
      fun c => !c.isDigit) = true) : atoi s = 0 := by
  simp only [atoi]
  rw [digitsVal_stop _ 0 hs]
  cases hb : (splitSign (dropSpaces s.data)).1 <;> simp [hb]

/-- Claim C9: check_size follows C atoi semantics.  Any string whose leading
decimal digit run denotes a positive value passing the alignment mask is
accepted as that value with all trailing non numeric characters ignored
(concretely, 16xyz is accepted as 16), and a string with no leading digits
makes atoi return 0 and is rejected with the Size must be positive error, not
a distinct syntax error. -/
theorem claim_C9 (mask : Nat) (ds rest : List Char) (s : String)
    (hne : ds ≠ []) (hdig : ∀ c ∈ ds, c.isDigit = true)
    (hrest : (rest.head?.all fun c => !c.isDigit) = true)
    (hpos : 0 < digitsVal ds 0) (halign : digitsVal ds 0 &&& mask = 0)
    (hs : ((splitSign (dropSpaces s.data)).2.head?.all
      fun c => !c.isDigit) = true) :
    check_size (some (String.mk (ds ++ rest))) mask = .ok (digitsVal ds 0) ∧
    atoi s = 0 ∧
    check_size (some s) mask = .error .sizeMustBePositive := by
  have ha := atoi_leading_digits ds rest hne hdig hrest
  have h0 := atoi_no_digits s hs
  refine ⟨?_, h0, ?_⟩
  · simp only [check_size, ha]
    rw [if_neg (by omega : ¬ ((digitsVal ds 0 : Nat) : Int) ≤ 0)]
    rw [Int.toNat_natCast]
    rw [if_neg (by omega : ¬ digitsVal ds 0 &&& mask ≠ 0)]
  · simp only [check_size, h0]
    rw [if_pos (le_refl (0 : Int))]

theorem claim_C9_witness :
    check_size (some "16xyz") 7 = .ok 16 ∧ atoi "xyz" = 0 ∧
    check_size (some "xyz") 7 = .error .sizeMustBePositive := by
  have h := claim_C9 7 ['1', '6'] ['x', 'y', 'z'] "xyz" (by decide) (by decide)
    (by decide) (by decide) (by decide) (by decide)
  exact ⟨h.1, h.2.1, h.2.2⟩

end Framesconv
